/-
Verification of the smolten agents (src/agents/*.py) against their
natural-language specification.

The Python sources are shallowly embedded: pure string manipulation becomes
Lean functions on `List Char` / `String`, pandas dataframes become an explicit
`DataFrame` structure, the LLM call becomes an explicit `String → Except String
String` parameter (the exception branch models a raised exception inside the
`try` block), and `json.loads` / `json.dumps` are modelled by an executable
JSON parser / serializer.  File/stream writes are modelled as `Emission`
values naming their channel.
-/
import Mathlib

namespace Smolten

/-! ### Python string primitives

`str.strip()` removes the Python whitespace characters from both ends;
`str.split(',')` splits on every comma keeping empty pieces. -/

/-- Python's default `str.strip()` whitespace set: space, \t, \n, \r, \x0b, \x0c. -/
def pyWsChar (c : Char) : Bool :=
  c = ' ' || c = '\t' || c = '\n' || c = '\r' || c = Char.ofNat 0x0b || c = Char.ofNat 0x0c

/-- `str.strip()` on a character list. -/
def pyStrip (l : List Char) : List Char :=
  ((l.dropWhile pyWsChar).reverse.dropWhile pyWsChar).reverse

/-- `str.strip()` on a `String`. -/
def pyStripStr (s : String) : String := String.mk (pyStrip s.data)

/-- `str.strip(chars)`: strip any of the given characters from both ends. -/
def pyStripChars (chars : List Char) (l : List Char) : List Char :=
  ((l.dropWhile (chars.contains ·)).reverse.dropWhile (chars.contains ·)).reverse

/-- Python `s.split(',')`: split on every comma, empty pieces kept.
`splitComma [] = [[]]` just as `"".split(',') == ['']`. -/
def splitComma : List Char → List (List Char)
  | [] => [[]]
  | c :: rest =>
    if c = ',' then [] :: splitComma rest
    else
      match splitComma rest with
      | s :: ss => (c :: s) :: ss
      | [] => [[c]]

/-- `",".join(parts)` on character lists. -/
def intercalateComma : List (List Char) → List Char
  | [] => []
  | [p] => p
  | p :: ps => p ++ ',' :: intercalateComma ps

/-- First index of `pat` as a substring (Python `s.find(pat)` when found). -/
def findSub (pat : List Char) : List Char → Option Nat
  | [] => if pat.isEmpty then some 0 else none
  | c :: rest =>
    if pat.isPrefixOf (c :: rest) then some 0
    else (findSub pat rest).map (· + 1)

/-- Python `s.find(ch)`: index of the first occurrence, `-1` when absent. -/
def pyFind (l : List Char) (ch : Char) : Int :=
  match l.findIdx? (· = ch) with
  | some i => (i : Int)
  | none => -1

/-- Python `s.rfind(ch)`: index of the last occurrence, `-1` when absent. -/
def pyRFind (l : List Char) (ch : Char) : Int :=
  match l.reverse.findIdx? (· = ch) with
  | some i => ((l.length - 1 - i : Nat) : Int)
  | none => -1

/-- Python slice `s[a:b]` for `0 ≤ a ≤ b` (the only use sites). -/
def pySlice (l : List Char) (a b : Nat) : List Char := (l.take b).drop a

/-! ### JSON values and a model of `json.loads`

`json.loads` is the Python standard library; it is modelled by an executable
strict JSON parser.  Integral numbers are stored exactly; a non-integral
number is kept in component form (decimal mantissa, fraction length,
exponent), which is injective and never consumed by the repository's code. -/

inductive JsonVal where
  | obj (fields : List (String × JsonVal))
  | arr (elems : List JsonVal)
  | str (s : String)
  | num (n : Int)
  | numNonInt (mantissa : Int) (fracLen : Nat) (exp : Int)
  | bool (b : Bool)
  | null

/-- JSON structural whitespace. -/
def jsonWs (c : Char) : Bool := c = ' ' || c = '\t' || c = '\n' || c = '\r'

def skipWs (l : List Char) : List Char := l.dropWhile jsonWs

def isDigit (c : Char) : Bool := '0' ≤ c && c ≤ '9'

def hexVal (c : Char) : Option Nat :=
  if '0' ≤ c ∧ c ≤ '9' then some (c.toNat - 48)
  else if 'a' ≤ c ∧ c ≤ 'f' then some (c.toNat - 87)
  else if 'A' ≤ c ∧ c ≤ 'F' then some (c.toNat - 55)
  else none

/-- Single-character JSON string escapes. -/
def escChar (c : Char) : Option Char :=
  if c = '"' then some '"'
  else if c = '\\' then some '\\'
  else if c = '/' then some '/'
  else if c = 'b' then some (Char.ofNat 8)
  else if c = 'f' then some (Char.ofNat 12)
  else if c = 'n' then some '\n'
  else if c = 'r' then some '\r'
  else if c = 't' then some '\t'
  else none

/-- Parse the body of a JSON string (the opening quote already consumed);
returns the content and the remainder after the closing quote. -/
def parseStringBody : Nat → List Char → Option (List Char × List Char)
  | 0, _ => none
  | _ + 1, [] => none
  | fuel + 1, c :: rest =>
    if c = '"' then some ([], rest)
    else if c = '\\' then
      match rest with
      | [] => none
      | e :: rest2 =>
        if e = 'u' then
          match rest2 with
          | h1 :: h2 :: h3 :: h4 :: rest3 =>
            match hexVal h1, hexVal h2, hexVal h3, hexVal h4 with
            | some x1, some x2, some x3, some x4 =>
              (parseStringBody fuel rest3).map
                (fun p => (Char.ofNat (((x1 * 16 + x2) * 16 + x3) * 16 + x4) :: p.1, p.2))
            | _, _, _, _ => none
          | _ => none
        else
          match escChar e with
          | some ec => (parseStringBody fuel rest2).map (fun p => (ec :: p.1, p.2))
          | none => none
    else if c.toNat < 0x20 then none
    else (parseStringBody fuel rest).map (fun p => (c :: p.1, p.2))

def digitsToNat (ds : List Char) : Nat :=
  ds.foldl (fun acc c => acc * 10 + (c.toNat - 48)) 0

/-- Parse a JSON number (strict grammar: optional minus, integer part without
leading zeros, optional fraction, optional exponent). -/
def parseNumber (l : List Char) : Option (JsonVal × List Char) :=
  let (neg, l1) := match l with
    | '-' :: r => (true, r)
    | _ => (false, l)
  let ds := l1.takeWhile isDigit
  let l2 := l1.dropWhile isDigit
  if ds.isEmpty then none
  else if 1 < ds.length ∧ ds.headD '0' = '0' then none
  else
    let ip : Int := (digitsToNat ds : Int)
    let (fds, l3) := match l2 with
      | '.' :: r => (r.takeWhile isDigit, r.dropWhile isDigit)
      | _ => ([], l2)
    if l2.headD ' ' = '.' ∧ fds.isEmpty then none
    else
      let hasFrac := l2.headD ' ' = '.'
      let (hasExp, expNeg, eds, l4) := match l3 with
        | 'e' :: '+' :: r => (true, false, r.takeWhile isDigit, r.dropWhile isDigit)
        | 'e' :: '-' :: r => (true, true, r.takeWhile isDigit, r.dropWhile isDigit)
        | 'e' :: r => (true, false, r.takeWhile isDigit, r.dropWhile isDigit)
        | 'E' :: '+' :: r => (true, false, r.takeWhile isDigit, r.dropWhile isDigit)
        | 'E' :: '-' :: r => (true, true, r.takeWhile isDigit, r.dropWhile isDigit)
        | 'E' :: r => (true, false, r.takeWhile isDigit, r.dropWhile isDigit)
        | _ => (false, false, [], l3)
      if hasExp ∧ eds.isEmpty then none
      else
        let sign : Int := if neg then -1 else 1
        if hasFrac ∨ hasExp then
          let mant : Int := sign * (ip * (10 : Int) ^ fds.length + (digitsToNat fds : Int))
          let ex : Int := if expNeg then -(digitsToNat eds : Int) else (digitsToNat eds : Int)
          some (.numNonInt mant fds.length ex, l4)
        else
          some (.num (sign * ip), l2)

mutual

/-- Parse one JSON value; `fuel` bounds the recursion depth. -/
def parseValue : Nat → List Char → Option (JsonVal × List Char)
  | 0, _ => none
  | fuel + 1, l =>
    match skipWs l with
    | [] => none
    | c :: rest =>
      if c = '\x7b' then
        match skipWs rest with
        | '\x7d' :: r2 => some (.obj [], r2)
        | _ => (parseMembers fuel rest).map (fun p => (.obj p.1, p.2))
      else if c = '[' then
        match skipWs rest with
        | ']' :: r2 => some (.arr [], r2)
        | _ => (parseElems fuel rest).map (fun p => (.arr p.1, p.2))
      else if c = '"' then
        (parseStringBody (rest.length + 1) rest).map (fun p => (.str (String.mk p.1), p.2))
      else if c = 't' then
        if ['r', 'u', 'e'].isPrefixOf rest then some (.bool true, rest.drop 3) else none
      else if c = 'f' then
        if ['a', 'l', 's', 'e'].isPrefixOf rest then some (.bool false, rest.drop 4) else none
      else if c = 'n' then
        if ['u', 'l', 'l'].isPrefixOf rest then some (.null, rest.drop 3) else none
      else parseNumber (c :: rest)

/-- Parse the members of a JSON object after its `\x7b`. -/
def parseMembers : Nat → List Char → Option (List (String × JsonVal) × List Char)
  | 0, _ => none
  | fuel + 1, l =>
    match skipWs l with
    | '"' :: rest =>
      match parseStringBody (rest.length + 1) rest with
      | some (k, r1) =>
        match skipWs r1 with
        | ':' :: r2 =>
          match parseValue fuel r2 with
          | some (v, r3) =>
            match skipWs r3 with
            | ',' :: r4 => (parseMembers fuel r4).map (fun p => ((String.mk k, v) :: p.1, p.2))
            | '\x7d' :: r4 => some ([(String.mk k, v)], r4)
            | _ => none
          | none => none
        | _ => none
      | none => none
    | _ => none

/-- Parse the elements of a JSON array after its `[`. -/
def parseElems : Nat → List Char → Option (List JsonVal × List Char)
  | 0, _ => none
  | fuel + 1, l =>
    match parseValue fuel l with
    | some (v, r1) =>
      match skipWs r1 with
      | ',' :: r2 => (parseElems fuel r2).map (fun p => (v :: p.1, p.2))
      | ']' :: r2 => some ([v], r2)
      | _ => none
    | none => none

end

/-- Model of Python `json.loads`: parse one value, require only whitespace after. -/
def jsonLoads (s : String) : Option JsonVal :=
  match parseValue (2 * s.data.length + 2) s.data with
  | some (v, rest) => if (skipWs rest).isEmpty then some v else none
  | none => none

/-! ### CSVTagger (src/agents/tagger.py) -/

/-- The sentinel tag. -/
def sentinel : String := "untagged"

/-- tagger.py line 78: join of "k: v" over the row's non-null cells. -/
def row_text (rowData : List (String × Option String)) : String :=
  String.intercalate " | "
    ((rowData.filter (fun kv => kv.2.isSome)).map (fun kv => kv.1 ++ ": " ++ kv.2.getD ""))

/-- The prompt built by tag_row (tagger.py lines 80-83). -/
def tag_prompt (rowData : List (String × Option String)) (ontologySummary : String) : String :=
  "Available tags: " ++ ontologySummary ++ "\nRow data: " ++ row_text rowData ++
    "\n\nReturn matching tags as lowercase, no-spaces, comma-separated (e.g., \"customer-service,urgent\"):"

/-- tagger.py line 103: split the response on commas, strip each piece, keep
the non-empty ones. -/
def proposed_tags (tagsString : String) : List (List Char) :=
  ((splitComma tagsString.data).map pyStrip).filter (fun t => !t.isEmpty)

/-- tag_row's handling of a returned response (tagger.py lines 94-109): strip
the response text, parse the proposed tags, return the sentinel when nothing
survives, else the comma-join. -/
def tag_row_response (response : String) : String :=
  let tagsString := pyStripStr response
  let proposed := proposed_tags tagsString
  if proposed.isEmpty || !(proposed.any (fun t => !t.isEmpty)) then sentinel
  else String.mk (intercalateComma proposed)

/-- CSVTagger.tag_row (tagger.py lines 74-113).  The model call is an explicit
function of the prompt; `Except.error` models an exception raised inside the
`try` block, answered by the sentinel. -/
def tag_row (rowData : List (String × Option String)) (ontologySummary : String)
    (model : String → Except String String) : String :=
  match model (tag_prompt rowData ontologySummary) with
  | .error _ => sentinel
  | .ok response => tag_row_response response

/-- A loaded pandas DataFrame: column names and rows of cells (`none` models
a null cell). -/
structure DataFrame where
  cols : List String
  rows : List (List (Option String))

/-- Cell lookup by column name. -/
def getCell (cols : List String) (row : List (Option String)) (c : String) : Option String :=
  match cols.findIdx? (· = c) with
  | some i => row.getD i none
  | none => none

/-- tagger.py lines 134-144: restrict the frame to the requested columns when
at least one of them exists, else keep the whole frame (`if columns:` treats
an empty list like None). -/
def filter_columns (df : DataFrame) (columns : Option (List String)) : DataFrame :=
  match columns with
  | none => df
  | some cs =>
    if cs.isEmpty then df
    else
      let avail := cs.filter (fun c => df.cols.contains c)
      if avail.isEmpty then df
      else { cols := avail, rows := df.rows.map (fun r => avail.map (getCell df.cols r)) }

/-- pandas `df[name] = vals` (tagger.py line 173): replace the column in place
when the name already exists, else append it on the right. -/
def set_column (df : DataFrame) (name : String) (vals : List (Option String)) : DataFrame :=
  match df.cols.findIdx? (· = name) with
  | some i => { cols := df.cols, rows := (df.rows.zip vals).map (fun p => p.1.set i p.2) }
  | none => { cols := df.cols ++ [name], rows := (df.rows.zip vals).map (fun p => p.1 ++ [p.2]) }

/-- The tag computed for each row of the restricted frame
(tagger.py lines 156-168, one `tag_row` per row in order). -/
def row_tags (tdf : DataFrame) (ontologySummary : String)
    (model : String → Except String String) : List String :=
  tdf.rows.map (fun r => tag_row (tdf.cols.zip r) ontologySummary model)

/-- CSVTagger.tag_csv (tagger.py lines 115-181), from the loaded frame to the
frame written out: tag every row of the (possibly column-restricted) frame in
order and assign the tag list to the `smolten_tag` column of the original
frame. -/
def tag_csv (df : DataFrame) (ontologySummary : String)
    (model : String → Except String String) (columns : Option (List String)) : DataFrame :=
  let tdf := filter_columns df columns
  set_column df "smolten_tag" ((row_tags tdf ontologySummary model).map some)

/-- The percentage values printed by the tag_csv progress loop
(tagger.py lines 156-164): the row indices 0..n-1 in iteration order,
reported when `idx % 25 == 0` or `idx == total_rows - 1`, each carrying
`(idx + 1) / total_rows * 100`. -/
def reported_percentages (totalRows : Nat) : List ℚ :=
  ((List.range totalRows).filter
      (fun idx => idx % 25 == 0 || idx == totalRows - 1)).map
    (fun idx : Nat => ((idx : ℚ) + 1) / (totalRows : ℚ) * 100)

/-- A well-formed serialized tag assignment: the sentinel, or a string whose
comma-separated pieces are all non-empty and already stripped. -/
def isTagAssignment (t : String) : Prop :=
  t = sentinel ∨ ∀ p ∈ splitComma t.data, p ≠ [] ∧ pyStrip p = p

/-! ### Terminal-output extraction (ontology_generator.py, ontologicker.py) -/

/-- AgentRunner terminal output: a native mapping, or free text. -/
inductive TermOut where
  | dict (fields : List (String × JsonVal))
  | text (s : String)

/-- An extraction failure; the raw agent text is carried for the diagnostic. -/
structure ExtractFailure where
  raw : String

/-- Model of `re.search(r'```json\s*(.*?)\s*```', s, re.DOTALL)` in
ontology_generator.py line 147: the content of the first fenced json block —
after the first "```json", the leading whitespace dropped (the greedy `\s*`),
up to the first following "```", the whitespace run before it dropped (the
lazy `.*?` against the trailing `\s*`). -/
def fence_extract (s : String) : Option (List Char) :=
  match findSub "```json".data s.data with
  | none => none
  | some i =>
    let rest := (s.data.drop (i + 7)).dropWhile pyWsChar
    match findSub "```".data rest with
    | none => none
    | some j => some (((rest.take j).reverse.dropWhile pyWsChar).reverse)

/-- ontology_generator.py lines 151-156: the first-`\x7b`-to-last-`\x7d` span
computed with Python `find`/`rfind` (-1 when absent), falling back to the
whole text. -/
def brace_span_candidate (s : String) : List Char :=
  let jsonStart := pyFind s.data '\x7b'
  let jsonEnd := pyRFind s.data '\x7d' + 1
  if jsonStart ≠ -1 ∧ jsonEnd > jsonStart then
    pySlice s.data jsonStart.toNat jsonEnd.toNat
  else s.data

/-- OntologyGenerator.generate_ontology result handling
(ontology_generator.py lines 141-167): accept a native dict as-is; otherwise
take the fenced json block's content if one exists, else the brace span, and
parse the candidate; a parse failure carries the raw response text. -/
def generator_extract : TermOut → Except ExtractFailure JsonVal
  | .dict d => .ok (.obj d)
  | .text s =>
    let candidate :=
      match fence_extract s with
      | some inner => inner
      | none => brace_span_candidate s
    match jsonLoads (String.mk candidate) with
    | some v => .ok v
    | none => .error ⟨s⟩

/-- ontologicker.py main's result parsing (lines 194-206): accept a native
dict as-is; otherwise strip the text and, only when it starts with "```",
strip fence characters from both ends and drop the first line; then parse the
remaining text whole — there is no brace-span stage. -/
def ontologicker_extract : TermOut → Except ExtractFailure JsonVal
  | .dict d => .ok (.obj d)
  | .text raw =>
    let s := pyStrip raw.data
    let s2 :=
      if "```".data.isPrefixOf s then
        let t := pyStripChars ['`', ' ', '\n'] s
        if t.contains '\n' then (t.dropWhile (· ≠ '\n')).drop 1 else t
      else s
    match jsonLoads (String.mk s2) with
    | some v => .ok v
    | none => .error ⟨raw⟩

/-- The extraction order as the specification words it: (1) a native mapping
as-is; (2) else the fenced block's inner content; (3) else the span from the
first `\x7b` to the last `\x7d` (the whole text when there is no such span);
the candidate is parsed, failures carrying the raw text. -/
def spec_staged_extract : TermOut → Except ExtractFailure JsonVal
  | .dict d => .ok (.obj d)
  | .text s =>
    let candidate :=
      match fence_extract s with
      | some inner => inner
      | none =>
        match s.data.findIdx? (· = '\x7b'), s.data.reverse.findIdx? (· = '\x7d') with
        | some i, some jr =>
          let j := s.data.length - 1 - jr
          if i ≤ j then pySlice s.data i (j + 1) else s.data
        | _, _ => s.data
    match jsonLoads (String.mk candidate) with
    | some v => .ok v
    | none => .error ⟨s⟩

/-! ### The agent run loop (spec section 4.1, modelled) -/

/-- What the model does at one step. -/
inductive ModelAction where
  | toolCall (snippet : String)
  | finalAnswer (payload : JsonVal)
  | text (s : String)

/-- Terminal states of a run. -/
inductive TerminalState where
  | success (payload : JsonVal)
  | exhausted (lastText : String)

/-- Modelled from the spec: the bounded AgentRunner step loop (spec section
4.1) — the loop itself lives in the external smolagents library and is absent
from src/; only its configuration (ontologicker.py lines 150-157) is in the
repository.  Each step the model acts: a final-answer invocation stops the run
at once in the success state; a tool call or free text consumes the step and
the loop continues; when the budget runs out the run ends in the exhausted
state with the last free text (or empty).  Returns the terminal state and the
number of steps taken. -/
def run_steps (model : Nat → ModelAction) : Nat → Nat → String → TerminalState × Nat
  | 0, taken, lastText => (.exhausted lastText, taken)
  | budget + 1, taken, lastText =>
    match model taken with
    | .finalAnswer p => (.success p, taken + 1)
    | .toolCall _ => run_steps model budget (taken + 1) lastText
    | .text s => run_steps model budget (taken + 1) s

/-- One agent run with the given step budget. -/
def agent_run (model : Nat → ModelAction) (budget : Nat) : TerminalState × Nat :=
  run_steps model budget 0 ""

/-- The CodeAgent configuration passed in ontologicker.py lines 150-157. -/
structure AgentConfig where
  addBaseTools : Bool
  maxSteps : Nat
  verbosityLevel : Nat

/-- ontologicker.py lines 150-157: add_base_tools=False, max_steps=4,
verbosity_level=0. -/
def ontologicker_agent_config : AgentConfig :=
  { addBaseTools := false, maxSteps := 4, verbosityLevel := 0 }

/-! ### The progress emitter (shared.py `progress`, ontologicker.py `progress`) -/

def hexChars : List Char := "0123456789abcdef".data

def hexDigit (n : Nat) : Char := hexChars.getD (n % 16) '0'

def hex4 (n : Nat) : List Char :=
  [hexDigit (n / 4096), hexDigit (n / 256), hexDigit (n / 16), hexDigit n]

def uEscape (n : Nat) : List Char := '\\' :: 'u' :: hex4 n

/-- json.dumps escaping of one character (default ensure_ascii=True): the
short escapes, `\uXXXX` for other control or non-ASCII characters, surrogate
pairs beyond the BMP. -/
def escapeChar (c : Char) : List Char :=
  if c = '"' then ['\\', '"']
  else if c = '\\' then ['\\', '\\']
  else if c = '\n' then ['\\', 'n']
  else if c = '\r' then ['\\', 'r']
  else if c = '\t' then ['\\', 't']
  else if c = Char.ofNat 8 then ['\\', 'b']
  else if c = Char.ofNat 12 then ['\\', 'f']
  else if c.toNat < 0x20 then uEscape c.toNat
  else if c.toNat < 0x7f then [c]
  else if c.toNat < 0x10000 then uEscape c.toNat
  else uEscape (0xd800 + (c.toNat - 0x10000) / 0x400) ++
    uEscape (0xdc00 + (c.toNat - 0x10000) % 0x400)

def escapeList : List Char → List Char
  | [] => []
  | c :: cs => escapeChar c ++ escapeList cs

/-- json.dumps of a string. -/
def dumpsStr (s : String) : List Char := '"' :: escapeList s.data ++ ['"']

def natDigits : Nat → Nat → List Char
  | 0, _ => []
  | fuel + 1, n => if n < 10 then [hexDigit n] else natDigits fuel (n / 10) ++ [hexDigit (n % 10)]

/-- Decimal digits of an integer, as json.dumps prints it. -/
def intDigits (n : Int) : List Char :=
  if n < 0 then '-' :: natDigits (n.natAbs + 1) n.natAbs
  else natDigits (n.toNat + 1) n.toNat

/-- The values appearing in a progress record. -/
inductive PValue where
  | str (s : String)
  | int (n : Int)

def dumpsPValue : PValue → List Char
  | .str s => dumpsStr s
  | .int n => intDigits n

def sepJoin : List (List Char) → List Char
  | [] => []
  | [p] => p
  | p :: ps => p ++ ',' :: ' ' :: sepJoin ps

/-- json.dumps of a flat string-keyed record (insertion order, the default
", " and ": " separators). -/
def dumpsObj (fields : List (String × PValue)) : List Char :=
  '\x7b' :: sepJoin (fields.map (fun kv => dumpsStr kv.1 ++ ':' :: ' ' :: dumpsPValue kv.2)) ++
    ['\x7d']

/-- The progress record built by `progress` (shared.py lines 21-27 and
identically ontologicker.py lines 81-87): type, message and emoji always
present in that order; percentage appended exactly when one was passed. -/
def progress_data (message ptype : String) (percentage : Option Int) (emoji : String) :
    List (String × PValue) :=
  [("type", .str ptype), ("message", .str message), ("emoji", .str emoji)] ++
    match percentage with
    | some p => [("percentage", .int p)]
    | none => []

/-- The keys of a record. -/
def recordKeys (fields : List (String × PValue)) : List String := fields.map (·.1)

/-- The argument defaults of ontologicker.progress (ontologicker.py line 79):
progress_type="status", percentage=None, emoji="🌋". -/
def ontologicker_progress_defaults : String × Option Int × String := ("status", none, "🌋")

/-- The default emoji literal of shared.progress (shared.py line 15): its
characters are U+00F0 U+0178 U+0152 U+2039 — the volcano's UTF-8 bytes
decoded as cp1252 (source bytes c3 b0 c5 b8 c5 92 e2 80 b9). -/
def shared_default_emoji : String :=
  String.mk [Char.ofNat 0xf0, Char.ofNat 0x178, Char.ofNat 0x152, Char.ofNat 0x2039]

/-- The argument defaults of shared.progress (shared.py line 15). -/
def shared_progress_defaults : String × Option Int × String :=
  ("status", none, shared_default_emoji)

/-- The volcano character U+1F30B, as written in ontologicker.py and in the
specification. -/
def volcano : String := "🌋"

/-- Output channels of the process. -/
inductive Channel where
  | stdout
  | stderr
  | outputFile
deriving DecidableEq

/-- One write to a channel. -/
structure Emission where
  channel : Channel
  text : String
  flush : Bool

/-- The progress emission: the distinguishing prefix followed by the JSON
record, printed as one line to stderr with flush=True (shared.py line 29,
ontologicker.py line 89). -/
def progress_emit (message ptype : String) (percentage : Option Int) (emoji : String) :
    Emission :=
  { channel := .stderr
    text := String.mk
      ("SMOLTEN_PROGRESS:".data ++ dumpsObj (progress_data message ptype percentage emoji))
    flush := true }

/-- The final-result write: the bare serialized artifact to the output file
(ontologicker.py lines 209-210, ontology_generator.py lines 259-260). -/
def result_emit (content : String) : Emission :=
  { channel := .outputFile, text := content, flush := true }

/-! ### Lemmas about stripping and splitting -/

lemma dropWhile_idem (p : Char → Bool) (l : List Char) :
    (l.dropWhile p).dropWhile p = l.dropWhile p := by
  induction l with
  | nil => simp
  | cons c r ih => by_cases h : p c <;> simp [List.dropWhile_cons, h, ih]

lemma head?_dropWhile_false (p : Char → Bool) (l : List Char) :
    ∀ c ∈ (l.dropWhile p).head?, p c = false := by
  induction l with
  | nil => simp
  | cons c r ih =>
    by_cases hc : p c
    · simpa [List.dropWhile_cons, hc] using ih
    · simp [List.dropWhile_cons, hc]

lemma dropWhile_eq_self_of_head? (p : Char → Bool) (l : List Char)
    (h : ∀ c ∈ l.head?, p c = false) : l.dropWhile p = l := by
  cases l with
  | nil => rfl
  | cons c r => simp [List.dropWhile_cons, h c (by simp)]

lemma pyStrip_idem (l : List Char) : pyStrip (pyStrip l) = pyStrip l := by
  have h1 : (pyStrip l).dropWhile pyWsChar = pyStrip l := by
    apply dropWhile_eq_self_of_head?
    intro c hc
    have hsuf : (l.dropWhile pyWsChar).reverse.dropWhile pyWsChar <:+
        (l.dropWhile pyWsChar).reverse := List.dropWhile_suffix _
    have hpre : pyStrip l <+: l.dropWhile pyWsChar := by
      unfold pyStrip
      exact List.reverse_suffix.mp (by simpa using hsuf)
    rcases hbr : pyStrip l with _ | ⟨x, xs⟩
    · simp [hbr] at hc
    · rw [hbr] at hc hpre
      simp at hc
      subst hc
      obtain ⟨t, hat⟩ := hpre
      exact head?_dropWhile_false pyWsChar l x (by rw [← hat]; simp)
  have h2 : ((pyStrip l).reverse).dropWhile pyWsChar = (pyStrip l).reverse := by
    unfold pyStrip
    rw [List.reverse_reverse]
    exact dropWhile_idem _ _
  calc pyStrip (pyStrip l)
      = (((pyStrip l).dropWhile pyWsChar).reverse.dropWhile pyWsChar).reverse := rfl
    _ = (((pyStrip l).reverse).dropWhile pyWsChar).reverse := by rw [h1]
    _ = ((pyStrip l).reverse).reverse := by rw [h2]
    _ = pyStrip l := List.reverse_reverse _

lemma mem_pyStrip (c : Char) (l : List Char) (h : c ∈ pyStrip l) : c ∈ l := by
  unfold pyStrip at h
  rw [List.mem_reverse] at h
  have h2 := (List.dropWhile_suffix (l := (l.dropWhile pyWsChar).reverse)
    (p := pyWsChar)).subset h
  rw [List.mem_reverse] at h2
  exact (List.dropWhile_suffix (l := l) (p := pyWsChar)).subset h2

lemma mem_splitComma_no_comma : ∀ (l : List Char) (p : List Char),
    p ∈ splitComma l → ',' ∉ p := by
  intro l
  induction l with
  | nil =>
    intro p hp
    simp [splitComma] at hp
    simp [hp]
  | cons c r ih =>
    intro p hp
    unfold splitComma at hp
    by_cases h : c = ','
    · simp [h] at hp
      rcases hp with rfl | hp
      · simp
      · exact ih p hp
    · simp [h] at hp
      rcases hs : splitComma r with _ | ⟨s, ss⟩
      · rw [hs] at hp
        simp at hp
        subst hp
        intro hm
        simp at hm
        exact h hm.symm
      · rw [hs] at hp
        simp at hp
        rcases hp with rfl | hp
        · intro hmem
          simp at hmem
          rcases hmem with rfl | hmem
          · exact h rfl
          · exact ih s (hs ▸ List.mem_cons_self s ss) hmem
        · exact ih p (hs ▸ List.mem_cons_of_mem _ hp)

lemma splitComma_no_comma (a : List Char) (h : ',' ∉ a) : splitComma a = [a] := by
  induction a with
  | nil => rfl
  | cons c r ih =>
    have hc : ¬ c = ',' := fun hq => h (hq ▸ List.mem_cons_self c r)
    conv_lhs => rw [splitComma]
    rw [if_neg hc, ih (fun hm => h (List.mem_cons_of_mem _ hm))]

lemma splitComma_comma_append (a b : List Char) (h : ',' ∉ a) :
    splitComma (a ++ ',' :: b) = a :: splitComma b := by
  induction a with
  | nil =>
    show splitComma (',' :: b) = [] :: splitComma b
    conv_lhs => rw [splitComma]
    rw [if_pos rfl]
  | cons c r ih =>
    have hc : ¬ c = ',' := fun hq => h (hq ▸ List.mem_cons_self c r)
    rw [List.cons_append]
    conv_lhs => rw [splitComma]
    rw [if_neg hc, ih (fun hm => h (List.mem_cons_of_mem _ hm))]

lemma splitComma_intercalateComma : ∀ (parts : List (List Char)), parts ≠ [] →
    (∀ p ∈ parts, ',' ∉ p) → splitComma (intercalateComma parts) = parts := by
  intro parts
  induction parts with
  | nil => intro h; exact absurd rfl h
  | cons p ps ih =>
    intro _ hall
    cases ps with
    | nil =>
      simpa [intercalateComma] using splitComma_no_comma p (hall p (List.mem_cons_self p []))
    | cons q qs =>
      show splitComma (p ++ ',' :: intercalateComma (q :: qs)) = p :: q :: qs
      rw [splitComma_comma_append _ _ (hall p (List.mem_cons_self p _))]
      rw [ih (by simp) (fun r hr => hall r (List.mem_cons_of_mem _ hr))]

lemma proposed_tags_wf (s : String) :
    ∀ p ∈ proposed_tags s, p ≠ [] ∧ pyStrip p = p ∧ ',' ∉ p := by
  intro p hp
  unfold proposed_tags at hp
  simp [List.mem_filter, List.mem_map] at hp
  obtain ⟨⟨q, hq, rfl⟩, hne⟩ := hp
  refine ⟨by simpa [List.isEmpty_iff] using hne, pyStrip_idem q, ?_⟩
  intro hm
  exact mem_splitComma_no_comma _ _ hq (mem_pyStrip _ _ hm)

/-! ### Lemmas about tag_row and tag_csv -/

lemma tag_row_response_eq (resp : String) :
    tag_row_response resp =
      if proposed_tags (pyStripStr resp) = [] then sentinel
      else String.mk (intercalateComma (proposed_tags (pyStripStr resp))) := by
  unfold tag_row_response
  rcases h : proposed_tags (pyStripStr resp) with _ | ⟨t, ts⟩
  · simp [h]
  · have ht : t ≠ [] := (proposed_tags_wf _ t (h ▸ List.mem_cons_self _ _)).1
    simp [h, ht]

lemma tag_row_response_isTagAssignment (resp : String) :
    isTagAssignment (tag_row_response resp) := by
  rw [tag_row_response_eq]
  split_ifs with h
  · exact Or.inl rfl
  · right
    intro p hp
    rw [show (String.mk (intercalateComma (proposed_tags (pyStripStr resp)))).data
        = intercalateComma (proposed_tags (pyStripStr resp)) from rfl] at hp
    rw [splitComma_intercalateComma _ h (fun q hq => (proposed_tags_wf _ q hq).2.2)] at hp
    exact ⟨(proposed_tags_wf _ p hp).1, (proposed_tags_wf _ p hp).2.1⟩

lemma tag_row_isTagAssignment (rowData : List (String × Option String))
    (ontologySummary : String) (model : String → Except String String) :
    isTagAssignment (tag_row rowData ontologySummary model) := by
  unfold tag_row
  rcases model (tag_prompt rowData ontologySummary) with e | r
  · exact Or.inl rfl
  · exact tag_row_response_isTagAssignment r

lemma filter_columns_rows_length (df : DataFrame) (columns : Option (List String)) :
    (filter_columns df columns).rows.length = df.rows.length := by
  rcases columns with _ | cs
  · rfl
  · simp only [filter_columns]
    split_ifs <;> simp

lemma row_tags_length (tdf : DataFrame) (s : String) (model : String → Except String String) :
    (row_tags tdf s model).length = tdf.rows.length := by
  simp [row_tags]

lemma tag_csv_rows_length (df : DataFrame) (s : String)
    (model : String → Except String String) (columns : Option (List String)) :
    (tag_csv df s model columns).rows.length = df.rows.length := by
  unfold tag_csv set_column
  rcases df.cols.findIdx? (· = "smolten_tag") with _ | i <;>
    simp [row_tags_length, filter_columns_rows_length]

lemma row_tags_isTagAssignment (tdf : DataFrame) (s : String)
    (model : String → Except String String) :
    ∀ t ∈ row_tags tdf s model, isTagAssignment t := by
  intro t ht
  simp [row_tags] at ht
  obtain ⟨r, _, rfl⟩ := ht
  exact tag_row_isTagAssignment _ _ _

lemma findIdx?_eq_none_of_not_mem (name : String) (cols : List String)
    (h : name ∉ cols) : cols.findIdx? (· = name) = none := by
  rw [List.findIdx?_eq_none_iff]
  intro x hx
  simp only [decide_eq_false_iff_not]
  exact fun he => h (he ▸ hx)

lemma zip_map_some_append (a : List (List (Option String))) (b : List String) :
    (a.zip (b.map some)).map (fun p => p.1 ++ [p.2]) =
      List.zipWith (fun r t => r ++ [some t]) a b := by
  induction a generalizing b with
  | nil => simp
  | cons x xs ih =>
    cases b with
    | nil => simp
    | cons y ys => simp [ih]

/-! ### Claim theorems for the tagger -/

/-- C1 counterexample: with the authoritative ontology whose keys are
"urgent" and "billing" (tag_csv passes exactly the key summary
"urgent, billing" to tag_row) and the model proposing "Urgent, spam",
tag_row returns "Urgent,spam" — not the claimed "urgent": no lowercasing, no
membership filtering, the unknown tag "spam" is kept. -/
theorem tag_row_no_validation_counterexample :
    tag_row [("subject", some "please pay the invoice")] "urgent, billing"
      (fun _ => .ok "Urgent, spam") = "Urgent,spam" ∧
    ("Urgent,spam" : String) ≠ "urgent" :=
  ⟨rfl, by decide⟩

/-- C1 amended: tag_row performs no ontology validation at all: its result
does not depend on the ontology summary (beyond the prompt shown to the
model), and equals the comma-split, whitespace-stripped, non-empty proposed
tags joined back with commas — unknown tags kept, case preserved — or the
sentinel when nothing survives. -/
theorem tag_row_ignores_ontology (rowData : List (String × Option String))
    (s1 s2 : String) (resp : String) :
    tag_row rowData s1 (fun _ => Except.ok resp) =
      tag_row rowData s2 (fun _ => Except.ok resp) ∧
    tag_row rowData s1 (fun _ => Except.ok resp) =
      (if proposed_tags (pyStripStr resp) = [] then sentinel
       else String.mk (intercalateComma (proposed_tags (pyStripStr resp)))) :=
  ⟨rfl, tag_row_response_eq resp⟩

/-- C4: tag_row never raises past its boundary: for every row, ontology
summary and model behavior it returns a well-formed TagAssignment string; a
model call that raises yields the sentinel for that row; and the batch
(tag_csv) always produces exactly one output row per input row. -/
theorem tag_row_never_raises (rowData : List (String × Option String))
    (ontologySummary : String) (model : String → Except String String) :
    isTagAssignment (tag_row rowData ontologySummary model) ∧
    (∀ e, model (tag_prompt rowData ontologySummary) = .error e →
      tag_row rowData ontologySummary model = sentinel) ∧
    ∀ (df : DataFrame) (columns : Option (List String)),
      (tag_csv df ontologySummary model columns).rows.length = df.rows.length := by
  refine ⟨tag_row_isTagAssignment _ _ _, ?_, fun df columns => tag_csv_rows_length _ _ _ _⟩
  intro e he
  unfold tag_row
  rw [he]

/-- C4 witness: a model that raises degrades the row to the sentinel. -/
theorem tag_row_never_raises_witness :
    tag_row [("subject", some "hello")] "tags" (fun _ => Except.error "boom") = sentinel :=
  (tag_row_never_raises [("subject", some "hello")] "tags"
    (fun _ => Except.error "boom")).2.1 "boom" rfl

/-- C5 amended: when the input frame has no `smolten_tag` column, tag_csv
keeps every original row in order and unchanged, appends exactly the
`smolten_tag` column on the right, and fills it with one well-formed
serialized assignment per row (also under a column preference list); if the
input already has a `smolten_tag` column, that column is instead overwritten
in place (see the counterexample). -/
theorem tag_csv_appends_column (df : DataFrame) (s : String)
    (model : String → Except String String) (columns : Option (List String))
    (h : "smolten_tag" ∉ df.cols) :
    (tag_csv df s model columns).cols = df.cols ++ ["smolten_tag"] ∧
    (tag_csv df s model columns).rows =
      List.zipWith (fun r t => r ++ [some t]) df.rows
        (row_tags (filter_columns df columns) s model) ∧
    (row_tags (filter_columns df columns) s model).length = df.rows.length ∧
    ∀ t ∈ row_tags (filter_columns df columns) s model, isTagAssignment t := by
  have hnone := findIdx?_eq_none_of_not_mem "smolten_tag" df.cols h
  refine ⟨?_, ?_, ?_, row_tags_isTagAssignment _ _ _⟩
  · simp [tag_csv, set_column, hnone]
  · simp [tag_csv, set_column, hnone, zip_map_some_append]
  · rw [row_tags_length, filter_columns_rows_length]

/-- C5 witness: a 1-row, 1-column frame gains exactly the smolten_tag
column, the original cell untouched. -/
theorem tag_csv_appends_column_witness :
    (tag_csv ⟨["text"], [[some "hello"]]⟩ "s" (fun _ => .ok "tag1") none).cols
      = ["text", "smolten_tag"] ∧
    (tag_csv ⟨["text"], [[some "hello"]]⟩ "s" (fun _ => .ok "tag1") none).rows
      = [[some "hello", some "tag1"]] := by
  have h := tag_csv_appends_column ⟨["text"], [[some "hello"]]⟩ "s"
    (fun _ => .ok "tag1") none (by decide)
  exact ⟨h.1, by rw [h.2.1]; rfl⟩

/-- C5 counterexample: an input frame that already has a `smolten_tag`
column: the output has the same columns (nothing appended) and the original
`smolten_tag` cell is overwritten, so "every original column unchanged plus
one appended column" fails. -/
theorem tag_csv_clash_counterexample :
    (tag_csv ⟨["text", "smolten_tag"], [[some "hello", some "old"]]⟩ "s"
        (fun _ => .ok "tag1") none).cols = ["text", "smolten_tag"] ∧
    (tag_csv ⟨["text", "smolten_tag"], [[some "hello", some "old"]]⟩ "s"
        (fun _ => .ok "tag1") none).rows = [[some "hello", some "tag1"]] ∧
    ([some "hello", some "tag1"] : List (Option String)) ≠ [some "hello", some "old"] :=
  ⟨rfl, rfl, by decide⟩

/-- C9 counterexample: for the response "untagged" tag_row returns the
sentinel string even though the response does contain a non-empty
comma-separated segment and no exception was raised — the claimed
"exactly when" fails in the only-if direction. -/
theorem tag_row_sentinel_collision :
    tag_row_response "untagged" = sentinel ∧
    proposed_tags (pyStripStr "untagged") = ["untagged".data] ∧
    ("untagged".data : List Char) ≠ [] :=
  ⟨rfl, rfl, by decide⟩

/-- C9 amended: tag_row returns the sentinel when the response has no
non-empty comma-separated segment or the model call raised, and otherwise
the surviving segments (non-empty, stripped) joined with commas — a result
that can itself equal the sentinel string when the model literally proposes
"untagged"; the returned assignment never contains an empty or
whitespace-padded tag. -/
theorem tag_row_response_shape (resp : String) :
    (proposed_tags (pyStripStr resp) = [] → tag_row_response resp = sentinel) ∧
    (proposed_tags (pyStripStr resp) ≠ [] →
      tag_row_response resp = String.mk (intercalateComma (proposed_tags (pyStripStr resp)))) ∧
    isTagAssignment (tag_row_response resp) ∧
    (∀ (rowData : List (String × Option String)) (s e : String),
      tag_row rowData s (fun _ => Except.error e) = sentinel) := by
  refine ⟨?_, ?_, tag_row_response_isTagAssignment resp, fun rowData s e => rfl⟩
  · intro h
    rw [tag_row_response_eq, if_pos h]
  · intro h
    rw [tag_row_response_eq, if_neg h]

/-- C9 witness: both branches at concrete responses. -/
theorem tag_row_response_shape_witness :
    tag_row_response "a, b" = String.mk (intercalateComma (proposed_tags (pyStripStr "a, b"))) ∧
    tag_row_response "  " = sentinel :=
  ⟨(tag_row_response_shape "a, b").2.1 (by decide), (tag_row_response_shape "  ").1 (by decide)⟩

/-! ### Claim theorems for extraction -/

lemma brace_span_candidate_eq (s : String) :
    brace_span_candidate s =
      match s.data.findIdx? (· = '\x7b'), s.data.reverse.findIdx? (· = '\x7d') with
      | some i, some jr =>
        let j := s.data.length - 1 - jr
        if i ≤ j then pySlice s.data i (j + 1) else s.data
      | _, _ => s.data := by
  unfold brace_span_candidate pyFind pyRFind
  rcases h1 : s.data.findIdx? (· = '\x7b') with _ | i <;>
    rcases h2 : s.data.reverse.findIdx? (· = '\x7d') with _ | jr <;>
    simp only []
  · simp
  · simp
  · simp
  · have hne : ((i : Nat) : Int) ≠ -1 := by omega
    by_cases hij : i ≤ s.data.length - 1 - jr
    · rw [if_pos ⟨hne, by omega⟩, if_pos hij]
      have h3 : (((s.data.length - 1 - jr : Nat) : Int) + 1).toNat
          = (s.data.length - 1 - jr) + 1 := by omega
      have h4 : ((i : Nat) : Int).toNat = i := by omega
      rw [h3, h4]
    · rw [if_neg, if_neg hij]
      rintro ⟨-, hgt⟩
      exact hij (by omega)

/-- C2 amended: the claimed three-stage first-match-wins extraction order
(native mapping as-is; else fenced block content; else first-to-last brace
span) is exactly what OntologyGenerator.generate_ontology implements;
ontologicker.main does not follow it (see the counterexample): it has no
brace-span stage. -/
theorem generator_extract_staged (t : TermOut) :
    generator_extract t = spec_staged_extract t := by
  cases t with
  | dict d => rfl
  | text s =>
    unfold generator_extract spec_staged_extract
    dsimp only
    rw [brace_span_candidate_eq]

/-- C2 counterexample: on text carrying a JSON object mid-sentence the staged
extraction (and generate_ontology) recovers the object, while
ontologicker.main's extraction fails: it parses the whole text and has no
brace-span stage. -/
theorem ontologicker_extract_no_span_counterexample :
    ontologicker_extract (.text "Result: \x7b\"a\": 1\x7d done")
      = .error ⟨"Result: \x7b\"a\": 1\x7d done"⟩ ∧
    spec_staged_extract (.text "Result: \x7b\"a\": 1\x7d done")
      = .ok (.obj [("a", .num 1)]) ∧
    (Except.error ⟨"Result: \x7b\"a\": 1\x7d done"⟩ : Except ExtractFailure JsonVal)
      ≠ .ok (.obj [("a", .num 1)]) :=
  ⟨rfl, rfl, fun h => Except.noConfusion h⟩

/-- C3 amended: for brace-free text with no fenced block the parse candidate
is the whole text; extraction fails — fatally, carrying the raw text in the
diagnostic — exactly when the whole text is not valid JSON; brace-free text
that is itself valid JSON (a bare array, say) is accepted instead (see the
counterexample). -/
theorem generator_extract_braceless (s : String)
    (hb : '\x7b' ∉ s.data ∧ '\x7d' ∉ s.data) (hf : fence_extract s = none) :
    (jsonLoads s = none → generator_extract (.text s) = .error ⟨s⟩) ∧
    ∀ v, jsonLoads s = some v → generator_extract (.text s) = .ok v := by
  have h1 : s.data.findIdx? (· = '\x7b') = none := by
    rw [List.findIdx?_eq_none_iff]
    intro x hx
    simp only [decide_eq_false_iff_not]
    exact fun he => hb.1 (he ▸ hx)
  have hcand : brace_span_candidate s = s.data := by
    unfold brace_span_candidate pyFind
    rw [h1]
    simp
  have hmk : String.mk s.data = s := rfl
  constructor
  · intro h
    unfold generator_extract
    dsimp only
    rw [hf]
    simp only [hcand, hmk, h]
  · intro v h
    unfold generator_extract
    dsimp only
    rw [hf]
    simp only [hcand, hmk, h]

/-- C3 witness: plain prose with no braces fails fatally with the raw text. -/
theorem generator_extract_braceless_witness :
    generator_extract (.text "no json here") = .error ⟨"no json here"⟩ :=
  (generator_extract_braceless "no json here" (by decide) rfl).1 rfl

/-- C3 counterexample: the brace-free text "[1, 2]" is valid JSON, so
extraction succeeds with a bare array instead of failing. -/
theorem generator_extract_braceless_counterexample :
    generator_extract (.text "[1, 2]") = .ok (.arr [.num 1, .num 2]) ∧
    '\x7b' ∉ "[1, 2]".data ∧ '\x7d' ∉ "[1, 2]".data :=
  ⟨rfl, by decide, by decide⟩

/-! ### Claim theorems for the run loop and telemetry -/

lemma run_steps_no_final (model : Nat → ModelAction)
    (h : ∀ i p, model i ≠ ModelAction.finalAnswer p) :
    ∀ (budget taken : Nat) (lastText : String),
      ∃ s, run_steps model budget taken lastText
        = (TerminalState.exhausted s, taken + budget) := by
  intro budget
  induction budget with
  | zero =>
    intro taken lastText
    exact ⟨lastText, by simp [run_steps]⟩
  | succ n ih =>
    intro taken lastText
    rcases hm : model taken with c | p | t
    · obtain ⟨s, hs⟩ := ih (taken + 1) lastText
      refine ⟨s, ?_⟩
      rw [run_steps, hm]
      dsimp only
      rw [hs]
      have harith : taken + 1 + n = taken + (n + 1) := by omega
      rw [harith]
    · exact absurd hm (h taken p)
    · obtain ⟨s, hs⟩ := ih (taken + 1) t
      refine ⟨s, ?_⟩
      rw [run_steps, hm]
      dsimp only
      rw [hs]
      have harith : taken + 1 + n = taken + (n + 1) := by omega
      rw [harith]

/-- C6: for every step budget N ≥ 1, a run whose model never invokes the
final-answer path takes exactly N steps and ends in the exhausted terminal
state (not a crash); in the repository the budget is fixed at max_steps=4
(ontologicker.py lines 150-157).  The loop itself is modelled from the
specification, since it lives in the external smolagents library. -/
theorem agent_run_exhausts_budget (model : Nat → ModelAction) (N : Nat)
    (h1 : 1 ≤ N) (h2 : ∀ i p, model i ≠ ModelAction.finalAnswer p) :
    (agent_run model N).2 = N ∧
    (∃ s, (agent_run model N).1 = TerminalState.exhausted s) ∧
    ontologicker_agent_config.maxSteps = 4 := by
  obtain ⟨s, hs⟩ := run_steps_no_final model h2 N 0 ""
  refine ⟨?_, ⟨s, ?_⟩, rfl⟩
  · simp [agent_run, hs]
  · simp [agent_run, hs]

/-- C6 witness: a model that only ever emits free text exhausts a budget of 3
in exactly 3 steps. -/
theorem agent_run_exhausts_budget_witness :
    (agent_run (fun _ => ModelAction.text "thinking") 3).2 = 3 ∧
    (∃ s, (agent_run (fun _ => ModelAction.text "thinking") 3).1
      = TerminalState.exhausted s) ∧
    ontologicker_agent_config.maxSteps = 4 :=
  agent_run_exhausts_budget (fun _ => ModelAction.text "thinking") 3 (by norm_num)
    (fun _ p h => ModelAction.noConfusion h)

/-- C8: within one tagging run the reported percentage values are
monotonically non-decreasing (tagger.py lines 156-164: the reporting indices
grow and the percentage is monotone in the index). -/
theorem reported_percentages_monotone (totalRows : Nat) :
    (reported_percentages totalRows).Pairwise (· ≤ ·) := by
  have H : ∀ a b : Nat, a < b →
      ((a : ℚ) + 1) / (totalRows : ℚ) * 100 ≤ ((b : ℚ) + 1) / (totalRows : ℚ) * 100 := by
    intro a b hab
    rcases Nat.eq_zero_or_pos totalRows with h0 | hpos
    · subst h0
      norm_num
    · have hn : (0 : ℚ) < (totalRows : ℚ) := by exact_mod_cast hpos
      have h1 : ((a : ℚ) + 1) / (totalRows : ℚ) ≤ ((b : ℚ) + 1) / (totalRows : ℚ) := by
        apply (div_le_div_iff_of_pos_right hn).mpr
        have : (a : ℚ) < (b : ℚ) := by exact_mod_cast hab
        linarith
      exact mul_le_mul_of_nonneg_right h1 (by norm_num)
  unfold reported_percentages
  exact List.Pairwise.map (fun idx : Nat => ((idx : ℚ) + 1) / (totalRows : ℚ) * 100) H
    ((List.pairwise_lt_range totalRows).filter _)

lemma hexDigit_ne_newline (n : Nat) : hexDigit n ≠ '\n' := by
  have haux : ∀ m, m < 16 → hexChars.getD m '0' ≠ '\n' := by decide
  have h : n % 16 < 16 := Nat.mod_lt _ (by norm_num)
  exact haux _ h

lemma uEscape_no_newline (n : Nat) : '\n' ∉ uEscape n := by
  intro hmem
  simp [uEscape, hex4] at hmem
  rcases hmem with h | h | h | h <;> exact hexDigit_ne_newline _ h.symm

set_option maxHeartbeats 1000000 in
lemma escapeChar_no_newline (c : Char) : '\n' ∉ escapeChar c := by
  unfold escapeChar
  split_ifs with h1 h2 h3 h4 h5 h6 h7 h8 h9 h10
  · decide
  · decide
  · decide
  · decide
  · decide
  · decide
  · decide
  · exact uEscape_no_newline _
  · intro hm
    simp at hm
    exact h3 hm.symm
  · exact uEscape_no_newline _
  · intro hm
    rcases List.mem_append.mp hm with hm | hm
    · exact uEscape_no_newline _ hm
    · exact uEscape_no_newline _ hm

lemma escapeList_no_newline (l : List Char) : '\n' ∉ escapeList l := by
  induction l with
  | nil => simp [escapeList]
  | cons c cs ih =>
    show '\n' ∉ escapeChar c ++ escapeList cs
    intro hm
    rcases List.mem_append.mp hm with hm | hm
    · exact escapeChar_no_newline c hm
    · exact ih hm

lemma dumpsStr_no_newline (s : String) : '\n' ∉ dumpsStr s := by
  unfold dumpsStr
  intro hm
  rcases List.mem_cons.mp hm with h | h
  · exact absurd h (by decide)
  · rcases List.mem_append.mp h with h | h
    · exact escapeList_no_newline _ h
    · exact absurd h (by decide)

lemma natDigits_no_newline : ∀ (fuel n : Nat), '\n' ∉ natDigits fuel n := by
  intro fuel
  induction fuel with
  | zero => intro n; simp [natDigits]
  | succ f ih =>
    intro n
    show '\n' ∉ (if n < 10 then [hexDigit n] else natDigits f (n / 10) ++ [hexDigit (n % 10)])
    split_ifs with h
    · intro hm
      simp at hm
      exact hexDigit_ne_newline _ hm.symm
    · intro hm
      rcases List.mem_append.mp hm with hm | hm
      · exact ih _ hm
      · simp at hm
        exact hexDigit_ne_newline _ hm.symm

lemma intDigits_no_newline (n : Int) : '\n' ∉ intDigits n := by
  unfold intDigits
  split_ifs with h
  · intro hm
    rcases List.mem_cons.mp hm with hm | hm
    · exact absurd hm (by decide)
    · exact natDigits_no_newline _ _ hm
  · exact natDigits_no_newline _ _

lemma dumpsPValue_no_newline (v : PValue) : '\n' ∉ dumpsPValue v := by
  cases v with
  | str s => exact dumpsStr_no_newline s
  | int n => exact intDigits_no_newline n

lemma sepJoin_no_newline : ∀ (ps : List (List Char)),
    (∀ p ∈ ps, '\n' ∉ p) → '\n' ∉ sepJoin ps := by
  intro ps
  induction ps with
  | nil => intro _; simp [sepJoin]
  | cons p qs ih =>
    intro h
    cases qs with
    | nil => exact h p (List.mem_cons_self _ _)
    | cons q rs =>
      show '\n' ∉ p ++ ',' :: ' ' :: sepJoin (q :: rs)
      intro hm
      rcases List.mem_append.mp hm with hm | hm
      · exact h p (List.mem_cons_self _ _) hm
      · rcases List.mem_cons.mp hm with hm | hm
        · exact absurd hm (by decide)
        · rcases List.mem_cons.mp hm with hm | hm
          · exact absurd hm (by decide)
          · exact ih (fun r hr => h r (List.mem_cons_of_mem _ hr)) hm

lemma dumpsObj_no_newline (fields : List (String × PValue)) : '\n' ∉ dumpsObj fields := by
  unfold dumpsObj
  intro hm
  rcases List.mem_cons.mp hm with hm | hm
  · exact absurd hm (by decide)
  · rcases List.mem_append.mp hm with hm | hm
    · refine sepJoin_no_newline _ ?_ hm
      intro part hpart
      simp only [List.mem_map] at hpart
      obtain ⟨⟨k, v⟩, _, rfl⟩ := hpart
      intro hmm
      rcases List.mem_append.mp hmm with hmm | hmm
      · exact dumpsStr_no_newline _ hmm
      · rcases List.mem_cons.mp hmm with hmm | hmm
        · exact absurd hmm (by decide)
        · rcases List.mem_cons.mp hmm with hmm | hmm
          · exact absurd hmm (by decide)
          · exact dumpsPValue_no_newline _ hmm
    · exact absurd hm (by decide)

/-- C7: every progress record is emitted as a single line — the serialized
record contains no newline character, json.dumps having escaped any — on
stderr, flushed, carrying the "SMOLTEN_PROGRESS:" prefix, while the final
result is written bare to a different channel; a line-oriented consumer can
therefore demultiplex the two without ambiguity. -/
theorem progress_demultiplexes (message ptype : String) (percentage : Option Int)
    (emoji : String) (content : String) :
    (progress_emit message ptype percentage emoji).channel = Channel.stderr ∧
    (progress_emit message ptype percentage emoji).flush = true ∧
    "SMOLTEN_PROGRESS:".data <+: (progress_emit message ptype percentage emoji).text.data ∧
    '\n' ∉ (progress_emit message ptype percentage emoji).text.data ∧
    (result_emit content).channel ≠ Channel.stderr := by
  refine ⟨rfl, rfl, ?_, ?_, fun h => Channel.noConfusion h⟩
  · exact List.prefix_append _ _
  · show '\n' ∉ "SMOLTEN_PROGRESS:".data
      ++ dumpsObj (progress_data message ptype percentage emoji)
    intro hm
    rcases List.mem_append.mp hm with hm | hm
    · exact absurd hm (by decide)
    · exact dumpsObj_no_newline _ hm

/-- C10: the record always carries the keys type, message and emoji — with
percentage present exactly when one is passed, and the defaulted
progress_type "status" — but the shared.py default emoji literal is the
mojibake string U+00F0 U+0178 U+0152 U+2039, the volcano's UTF-8 bytes
mis-decoded, not the volcano character itself; ontologicker.py's copy of the
function does default to the volcano, which is the evident intent. -/
theorem shared_progress_emoji_mojibake :
    (progress_data "warming up" shared_progress_defaults.1 shared_progress_defaults.2.1
        shared_progress_defaults.2.2).lookup "emoji" = some (.str shared_default_emoji) ∧
    shared_default_emoji ≠ volcano ∧
    ontologicker_progress_defaults.2.2 = volcano ∧
    shared_progress_defaults.1 = "status" ∧
    (∀ (m t e : String), recordKeys (progress_data m t none e)
      = ["type", "message", "emoji"]) ∧
    ∀ (m t e : String) (p : Int), recordKeys (progress_data m t (some p) e)
      = ["type", "message", "emoji", "percentage"] :=
  ⟨rfl, by decide, rfl, rfl, fun _ _ _ => rfl, fun _ _ _ _ => rfl⟩


/-! ### Concrete sanity checks of the embedded parser and extractors -/

example : jsonLoads "[1, 2]" = some (.arr [.num 1, .num 2]) := rfl

example : jsonLoads "\x7b\"a\": 1\x7d" = some (.obj [("a", .num 1)]) := rfl

example : jsonLoads "hello" = none := rfl

example : jsonLoads "null" = some .null := rfl

example : jsonLoads "prefix \x7b\"a\": 1\x7d" = none := rfl

example : tag_row [("subject", some "x")] "urgent, billing"
    (fun _ => .ok "Urgent, spam") = "Urgent,spam" := rfl

example : tag_row_response "  " = "untagged" := rfl

example : tag_row_response "a, ,b" = "a,b" := rfl

example : generator_extract (.text "Result: \x7b\"a\": 1\x7d done") = .ok (.obj [("a", .num 1)]) := rfl

example : ontologicker_extract (.text "Result: \x7b\"a\": 1\x7d done") =
    .error ⟨"Result: \x7b\"a\": 1\x7d done"⟩ := rfl

example : generator_extract (.text "```json\n\x7b\"a\": 1\x7d\n```") = .ok (.obj [("a", .num 1)]) := rfl

example : generator_extract (.text "[1, 2]") = .ok (.arr [.num 1, .num 2]) := rfl

example : generator_extract (.text "no data here") = .error ⟨"no data here"⟩ := rfl

end Smolten
